import Mathlib

/-!
Verification of the caption-conversion core of `pytube` (`src/pytube/captions.py`)
against its specification.

The Python code is shallowly embedded: Python strings are `String` (logically a
`List Char`), Python floats are modelled as exact rationals `ℚ`, a raised
exception is modelled by `Option.none` in the result of the function that lets
it escape, and XML input is modelled at the interface of
`xml.etree.ElementTree.fromstring` (either a parse error, or an element tree).
-/

-- The Batteries rational operations are `@[irreducible]`, which blocks `decide`
-- from evaluating concrete timestamp arithmetic; restore default reducibility.
attribute [local semireducible] Rat.mul Rat.add Rat.sub Rat.inv

/-! ### Python string primitives used by `captions.py` -/

/-- Python `str.replace(old, new)` for a one-character pattern `a`
(used by `captions.py` as `text.replace("\n", " ")`). -/
def replace1 (a : Char) (rep : List Char) : List Char → List Char
  | [] => []
  | c :: rest => (if c = a then rep else [c]) ++ replace1 a rep rest

/-- Python `str.replace(old, new)` for a two-character pattern `a ++ b`:
scan left to right, replace each non-overlapping occurrence, continue after it
(used by `captions.py` as `.replace("  ", " ")` and `.replace("0.", "")`). -/
def replace2 (a b : Char) (rep : List Char) : List Char → List Char
  | c :: d :: rest =>
    if c = a ∧ d = b then rep ++ replace2 a b rep rest
    else c :: replace2 a b rep (d :: rest)
  | l => l

/-- The characters stripped by Python `str.strip()` with no argument
(ASCII whitespace; the further Unicode whitespace stripped by Python does not
occur in any input considered here). -/
def isPySpace (c : Char) : Bool :=
  c == ' ' || c == '\t' || c == '\n' || c == '\r' || c == '\x0b' || c == '\x0c'

/-- Python `str.strip()`: drop leading and trailing whitespace. -/
def pyStrip (s : String) : String :=
  String.mk (((s.data.dropWhile isPySpace).reverse.dropWhile isPySpace).reverse)

/-- Python `str.strip('.')` as used on `vssId`: drop all leading and trailing
`'.'` characters. -/
def stripDots (s : String) : String :=
  String.mk (((s.data.dropWhile (· == '.')).reverse.dropWhile (· == '.')).reverse)

/-- Decimal digits to a natural number (helper for `pyFloat`). -/
def digitsToNat (l : List Char) : Nat :=
  l.foldl (fun a c => a * 10 + (c.toNat - 48)) 0

/-- Modelled from the spec: Python `float(str)` applied to a `t`/`d` attribute
string — "parsed as a floating-point millisecond value. Fails ... if the
attribute is absent or non-numeric" (§4.5). The Python builtin is not part of
this repository's sources; it is modelled on plain decimal literals
(optional sign, digits, optional fractional part), the only shapes the spec's
timed-text format produces. `none` models the raised `ValueError`. -/
def pyFloat (s : String) : Option ℚ :=
  let l := s.data
  let signAndRest : ℚ × List Char :=
    match l with
    | '-' :: r => (-1, r)
    | '+' :: r => (1, r)
    | _ => (1, l)
  let sign := signAndRest.1
  let l1 := signAndRest.2
  let ip := l1.takeWhile Char.isDigit
  let rest := l1.dropWhile Char.isDigit
  match rest with
  | '.' :: r2 =>
    let fp := r2.takeWhile Char.isDigit
    let rest2 := r2.dropWhile Char.isDigit
    if rest2 = [] ∧ (ip ≠ [] ∨ fp ≠ []) then
      some (sign.mul ((Rat.divInt (digitsToNat ip) 1).add
        (Rat.divInt (digitsToNat fp) (10 ^ fp.length))))
    else none
  | [] => if ip ≠ [] then some (sign.mul (Rat.divInt (digitsToNat ip) 1)) else none
  | _ => none

/-! ### Model of `html.unescape` and the shared text normalization -/

/-- Hexadecimal digit test (for `&#x...;` character references). -/
def isHexDigit (c : Char) : Bool :=
  c.isDigit || ('a' ≤ c && c ≤ 'f') || ('A' ≤ c && c ≤ 'F')

/-- Hexadecimal digit value (helper for `parseRef`). -/
def hexDigitVal (c : Char) : Nat :=
  if c.isDigit then c.toNat - 48
  else if 'a' ≤ c ∧ c ≤ 'f' then c.toNat - 87
  else c.toNat - 55

/-- Hexadecimal digits to a natural number (helper for `parseRef`). -/
def hexToNat (l : List Char) : Nat :=
  l.foldl (fun a c => a * 16 + hexDigitVal c) 0

/-- Modelled from the spec: the named HTML/XML entities recognised by the
"unescape HTML/XML character and entity references" step (§4.3 step 5). The
full table of Python's `html.unescape` (not part of this repository's sources)
is abridged to the XML entities plus `nbsp`; only the fact that unescaping
rewrites nothing but `&`-introduced references matters to the claims. -/
def namedEntity (n : List Char) : Option (List Char) :=
  if n = "amp".data then some ['&']
  else if n = "lt".data then some ['<']
  else if n = "gt".data then some ['>']
  else if n = "quot".data then some ['"']
  else if n = "apos".data then some [Char.ofNat 39]
  else if n = "nbsp".data then some [Char.ofNat 160]
  else none

/-- Modelled from the spec: given the text following a `&`, recognise one
character or entity reference (`&#ddd;`, `&#xhh;`, `&name;`). Returns the
replacement text and the number of characters consumed after the `&`, or
`none` when the `&` does not introduce a reference. -/
def parseRef (l : List Char) : Option (List Char × Nat) :=
  match l with
  | '#' :: rest =>
    match rest with
    | c :: r2 =>
      if c = 'x' ∨ c = 'X' then
        let ds := r2.takeWhile isHexDigit
        match r2.drop ds.length with
        | ';' :: _ =>
          if ds = [] then none else some ([Char.ofNat (hexToNat ds)], ds.length + 3)
        | _ => none
      else
        let ds := rest.takeWhile Char.isDigit
        match rest.drop ds.length with
        | ';' :: _ =>
          if ds = [] then none else some ([Char.ofNat (digitsToNat ds)], ds.length + 2)
        | _ => none
    | [] => none
  | _ =>
    let nm := l.takeWhile (fun c => c.isAlpha || c.isDigit)
    match l.drop nm.length with
    | ';' :: _ => (namedEntity nm).map (fun rep => (rep, nm.length + 1))
    | _ => none

/-- Modelled from the spec: the scanner of the unescaping step. Each step
consumes at least one character, so a fuel of the input length is exact. -/
def unescapeFuel : Nat → List Char → List Char
  | 0, l => l
  | _ + 1, [] => []
  | fuel + 1, c :: rest =>
    if c = '&' then
      match parseRef rest with
      | some (rep, k) => rep ++ unescapeFuel fuel (rest.drop k)
      | none => c :: unescapeFuel fuel rest
    else c :: unescapeFuel fuel rest

/-- Modelled from the spec: `html.unescape` — "unescape HTML/XML character and
entity references" (§4.3 step 5). The Python stdlib function is not part of
this repository's sources. -/
def unescape (s : String) : String :=
  String.mk (unescapeFuel s.data.length s.data)

/-- `True` iff some position of the list starts a character/entity reference
(a `&` followed by text that `parseRef` recognises). -/
def hasRef : List Char → Bool
  | [] => false
  | c :: rest => (c == '&' && (parseRef rest).isSome) || hasRef rest

/-- `True` iff the list has no two consecutive occurrences of `a ++ b`
(instantiated with two spaces for the claim about normalization). -/
def noPair (a b : Char) : List Char → Bool
  | [] => true
  | [_] => true
  | c :: d :: rest => !(c == a && d == b) && noPair a b (d :: rest)

/-- The text normalization shared by both generation functions
(`captions.py` lines 113 and 160):
`unescape(text.replace("\n", " ").replace("  ", " "))`. -/
def normalizeText (s : String) : String :=
  unescape (String.mk (replace2 ' ' ' ' [' '] (replace1 '\n' [' '] s.data)))

/-! ### Timestamp formatting (`float_to_srt_time_format`, `timestamp_to_srt_time_format`) -/

/-- Zero-padded two-digit decimal field of `strftime("%H:%M:%S")`. -/
def pad2 (n : Nat) : String :=
  if n < 10 then "0" ++ toString n else toString n

/-- Zero-padded three-digit decimal field of `f"{x:.3f}"`. -/
def pad3 (n : Nat) : String :=
  if n < 10 then "00" ++ toString n
  else if n < 100 then "0" ++ toString n
  else toString n

/-- The integer part of `math.modf`: truncation of a rational toward zero. -/
def ratTrunc (q : ℚ) : Int :=
  if q < 0 then -((Rat.neg q).floor) else q.floor

/-- Round to the nearest integer, ties to even: the correct rounding performed
by Python's fixed-precision formatting `f"{x:.3f}"` on the third decimal. -/
def roundHalfEven (q : ℚ) : Int :=
  let f := q.floor
  let r := q.sub (Rat.divInt f 1)
  if r < Rat.divInt 1 2 then f
  else if Rat.divInt 1 2 < r then f + 1
  else if f % 2 = 0 then f else f + 1

/-- `f"{q:.3f}"` for `0 ≤ q`: integer part, a dot, and exactly three decimals
with correct rounding. -/
def fixed3abs (q : ℚ) : String :=
  let n := (roundHalfEven (q.mul (Rat.divInt 1000 1))).toNat
  toString (n / 1000) ++ "." ++ pad3 (n % 1000)

/-- `f"{q:.3f}"`: sign handling around `fixed3abs`. -/
def fixed3 (q : ℚ) : String :=
  if q < 0 then "-" ++ fixed3abs (Rat.neg q) else fixed3abs q

/-- `time.strftime("%H:%M:%S,", time.gmtime(n))` for an integral number of
seconds `n` since the epoch: the hour field is the time of day, so the value
wraps at 24 hours (the floor-convention `emod` matches `gmtime` on negative
inputs). -/
def strftimeHMS (n : Int) : String :=
  let s : Nat := (n.emod 86400).toNat
  pad2 (s / 3600) ++ ":" ++ pad2 ((s / 60) % 60) ++ ":" ++ pad2 (s % 60) ++ ","

/-- `Caption.float_to_srt_time_format` (`captions.py` lines 70-83):
`fraction, whole = math.modf(d)`;
`time_fmt = time.strftime("%H:%M:%S,", time.gmtime(whole))`;
`ms = f"{fraction:.3f}".replace("0.", "")`; return `time_fmt + ms`.
Python floats are modelled as exact rationals. -/
def float_to_srt_time_format (d : ℚ) : String :=
  let whole : Int := ratTrunc d
  let fraction : ℚ := d.sub (Rat.divInt whole 1)
  let ms : String := String.mk (replace2 '0' '.' [] (fixed3 fraction).data)
  strftimeHMS whole ++ ms

/-- `Caption.timestamp_to_srt_time_format` (`captions.py` lines 53-68):
`return Caption.float_to_srt_time_format(timestamp / 1000)`. -/
def timestamp_to_srt_time_format (t : ℚ) : String :=
  float_to_srt_time_format (t.div (Rat.divInt 1000 1))

/-- C5: `timestamp_to_srt_time_format(ms)` equals
`float_to_srt_time_format(ms / 1000)` for every input, and both functions
produce the listed timestamps on the listed inputs (Python floats modelled as
exact rationals; on these inputs the float rounding of `%.3f` and the exact
rounding agree digit for digit). -/
theorem timestamp_format_values :
    (∀ ms : ℚ, timestamp_to_srt_time_format ms = float_to_srt_time_format (ms / 1000)) ∧
    timestamp_to_srt_time_format 3890 = "00:00:03,890" ∧
    timestamp_to_srt_time_format 1000 = "00:00:01,000" ∧
    timestamp_to_srt_time_format 10003 = "00:00:10,003" ∧
    timestamp_to_srt_time_format 70003 = "00:01:10,003" ∧
    timestamp_to_srt_time_format 123123 = "00:02:03,123" ∧
    timestamp_to_srt_time_format 3903123 = "01:05:03,123" ∧
    float_to_srt_time_format (389 / 100) = "00:00:03,890" :=
  ⟨fun _ => rfl, by decide, by decide, by decide, by decide, by decide, by decide, by decide⟩

/-! ### XML model (the interface of `xml.etree.ElementTree`) -/

/-- An element of the tree returned by `ElementTree.fromstring`: tag,
attribute dictionary, the text preceding the first child (`.text`), and the
direct children in document order. -/
structure XElem where
  tag : String
  attrib : List (String × String)
  text : Option String
  children : List XElem

/-- The outcome of `ElementTree.fromstring(xml_captions)` on the raw input
string: a parse error for input that is not well-formed XML, or the root
element of the tree. In `captions.py` this call is made before the `try`
block of both generation functions (lines 104 and 148). -/
inductive ParseResult where
  | parseError : ParseResult
  | root : XElem → ParseResult

/-- A placeholder element (used only as the default of total lookups). -/
def dummyElem : XElem := ⟨"", [], none, []⟩

/-- `ps[i]` as a total function. -/
def elemAt (ps : List XElem) (i : Nat) : XElem := ps.getD i dummyElem

/-- `element.find(tag)`: the first direct child with the given tag, or `None`. -/
def findChild (e : XElem) (t : String) : Option XElem :=
  e.children.find? (fun c => c.tag == t)

/-- `element.findall(tag)`: all direct children with the given tag, in
document order. -/
def findAll (e : XElem) (t : String) : List XElem :=
  e.children.filter (fun c => c.tag == t)

/-- `element.attrib[key]` as a dictionary lookup: `none` models the raised
`KeyError`. -/
def attr (e : XElem) (k : String) : Option String :=
  (e.attrib.find? (fun kv => kv.1 == k)).map (fun kv => kv.2)

/-- `reduce(lambda acc, s: acc + (s.text or ""), p.findall('s'), "")`
(`captions.py` lines 112 and 159): the concatenated text of the `s` children. -/
def pText (p : XElem) : String :=
  (findAll p "s").foldl (fun acc s => acc ++ s.text.getD "") ""

/-- `float(p.attrib["t"])`: `none` models both the `KeyError` (attribute
absent) and the `ValueError` (non-numeric). -/
def tOf (p : XElem) : Option ℚ := (attr p "t").bind pyFloat

/-- `float(p.attrib["d"])`: `none` models both the `KeyError` and the
`ValueError`. -/
def dOf (p : XElem) : Option ℚ := (attr p "d").bind pyFloat

/-! ### `xml_caption_to_transcript` (`captions.py` lines 93-119) -/

/-- The `segments` list built by the `for p in child.findall('p')` loop of
`xml_caption_to_transcript`, starting from the body lookup: a missing `body`
raises an `AssertionError` that the bare `except` catches, leaving `segments`
empty. -/
def transcriptSegments (root : XElem) : List String :=
  match findChild root "body" with
  | none => []
  | some body =>
    (findAll body "p").foldl (fun acc p =>
      let caption := normalizeText (pText p)
      if caption != "" then acc ++ [caption] else acc) []

/-- `Caption.xml_caption_to_transcript` on a raw input string, represented by
the outcome of its `ElementTree.fromstring` call. That call happens before
the `try` block (line 104), so a parse error escapes the function — modelled
by `none`; every later error is caught and the function returns
`" ".join(segments).strip()`. -/
def xml_caption_to_transcript : ParseResult → Option String
  | ParseResult.parseError => none
  | ParseResult.root e =>
    some (pyStrip (String.intercalate " " (transcriptSegments e)))

/-! ### `xml_caption_to_srt` (`captions.py` lines 121-169) -/

/-- One cue block, as built by `append_segment` (lines 131-145):
`"{seq}\n{start} --> {end}\n{text}\n"` with both times formatted by
`timestamp_to_srt_time_format`. -/
def srtLine (seq : Nat) (start finish : ℚ) (caption : String) : String :=
  toString seq ++ "\n" ++ timestamp_to_srt_time_format start ++ " --> " ++
    timestamp_to_srt_time_format finish ++ "\n" ++ caption ++ "\n"

/-- The `for i in range(len(ps))` loop of `xml_caption_to_srt` (lines 156-165),
processing the paragraphs left to right with `i` the current 0-based index:
`start = float(p.attrib["t"])`; `end` is the next paragraph's `t` if there is a
next paragraph, else this paragraph's `d`. A `KeyError`/`ValueError` aborts the
loop (the bare `except` catches it outside), keeping the blocks appended so
far. -/
def srtGoL (i : Nat) : List XElem → List String
  | [] => []
  | p :: rest =>
    match tOf p with
    | none => []
    | some start =>
      let caption := normalizeText (pText p)
      match (match rest with | next :: _ => tOf next | [] => dOf p) with
      | none => []
      | some finish => srtLine (i + 1) start finish caption :: srtGoL (i + 1) rest

/-- The `segments` list built by `xml_caption_to_srt`, starting from the body
lookup (a missing `body` leaves it empty, as in `transcriptSegments`). -/
def srtSegments (root : XElem) : List String :=
  match findChild root "body" with
  | none => []
  | some body => srtGoL 0 (findAll body "p")

/-- `Caption.xml_caption_to_srt` on a raw input string, represented by the
outcome of its `ElementTree.fromstring` call. That call happens before the
`try` block (line 148), so a parse error escapes the function — modelled by
`none`; every later error is caught and the function returns
`"\n".join(segments).strip()`. -/
def xml_caption_to_srt : ParseResult → Option String
  | ParseResult.parseError => none
  | ParseResult.root e =>
    some (pyStrip (String.intercalate "\n" (srtSegments e)))

/-! ### `Caption.__init__` and `Caption.__repr__` (`captions.py` lines 15-38, 236-238) -/

/-- One element of the `runs` list of a caption-track name: a mapping that may
carry a `text` field. -/
structure RunDict where
  text : Option String

/-- The `name` field of a caption-track descriptor: a mapping that may carry
`simpleText` and/or `runs` keys. -/
structure NameDict where
  simpleText : Option String
  runs : Option (List RunDict)

/-- A caption-track descriptor as consumed by `Caption.__init__`: the keys it
reads. `none` models an absent key. -/
structure CaptionTrackDict where
  baseUrl : Option String
  name : Option NameDict
  vssId : Option String

/-- The attributes of a constructed `Caption`. `name = none` models the state
in which the loop over `runs` never executed its body, so the attribute
`self.name` was never assigned. -/
structure Caption where
  url : Option String
  name : Option String
  code : String
deriving DecidableEq

/-- `Caption.__init__` (lines 15-38). `self.url = caption_track.get("baseUrl")`
never fails; `caption_track['name']` and `caption_track["vssId"]` raise
`KeyError` (modelled by `none`) when the key is absent, as does
`name_dict['runs']` when `simpleText` is absent; the loop over `runs`
overwrites `self.name` with each run's `text` in turn; the stored code is
`vssId.strip('.')`. -/
def mkCaption (d : CaptionTrackDict) : Option Caption :=
  match d.name with
  | none => none
  | some nd =>
    let nameRes : Option (Option String) :=
      match nd.simpleText with
      | some s => some (some s)
      | none =>
        match nd.runs with
        | none => none
        | some rs =>
          some (rs.foldl (fun acc r =>
            match r.text with
            | some t => some t
            | none => acc) none)
    match nameRes with
    | none => none
    | some nm =>
      match d.vssId with
      | none => none
      | some v => some { url := d.baseUrl, name := nm, code := stripDots v }

/-- `Caption.__repr__` (lines 236-238): reads `self.name`, so it raises
`AttributeError` (modelled by `none`) when that attribute was never
assigned. -/
def reprCaption (c : Caption) : Option String :=
  match c.name with
  | none => none
  | some n => some ("<Caption lang=\"" ++ n ++ "\" code=\"" ++ c.code ++ "\">")

example : timestamp_to_srt_time_format (Rat.divInt 3890 1) = "00:00:03,890" := by decide
example : timestamp_to_srt_time_format (Rat.divInt 3903123 1) = "01:05:03,123" := by decide
example : float_to_srt_time_format (Rat.divInt 389 100) = "00:00:03,890" := by decide
example : normalizeText "a\nb  c &amp; d" = "a b c & d" := by decide
example : pyFloat "1.7" = some (Rat.divInt 17 10) := by decide
example : pyFloat "2410" = some (Rat.divInt 2410 1) := by decide
example : pyFloat "" = none := by decide
example : pyFloat "x1" = none := by decide
example : stripDots ".en" = "en" := by decide
example : pyStrip "  a b \n" = "a b" := by decide

def sampleRoot : XElem :=
  ⟨"timedtext", [("format", "3")], none,
    [⟨"body", [], none,
      [⟨"w", [("t", "0")], none, []⟩,
       ⟨"p", [("t", "320"), ("d", "1.7")], none, [⟨"s", [("ac", "255")], some "A", []⟩]⟩,
       ⟨"p", [("t", "1750"), ("d", "2410"), ("w", "1"), ("a", "1")], some " ", []⟩,
       ⟨"p", [("t", "1760"), ("d", "5119"), ("w", "1")], none, [⟨"s", [("ac", "255")], some "B", []⟩]⟩]⟩]⟩

example : xml_caption_to_transcript (ParseResult.root sampleRoot) = some "A B" := by decide
example : xml_caption_to_srt (ParseResult.root sampleRoot) = some
    ("1\n00:00:00,320 --> 00:00:01,750\nA\n\n2\n00:00:01,750 --> 00:00:01,760\n\n\n3\n00:00:01,760 --> 00:00:05,119\nB") := by
  decide
example : mkCaption ⟨some "url1", some ⟨some "name1", none⟩, some ".en"⟩ =
    some ⟨some "url1", some "name1", "en"⟩ := by decide
example : reprCaption ⟨some "url1", some "name1", "en"⟩ =
    some "<Caption lang=\"name1\" code=\"en\">" := by decide

/-! ### Lemmas about the normalization step -/

theorem replace1_id (a : Char) (rep : List Char) (l : List Char)
    (h : l.all (fun c => !(c == a)) = true) : replace1 a rep l = l := by
  induction l with
  | nil => rfl
  | cons c rest ih =>
    simp only [List.all_cons, Bool.and_eq_true, Bool.not_eq_true'] at h
    have hca : ¬ c = a := by simpa using h.1
    simp [replace1, hca, ih h.2]

theorem replace2_id (a b : Char) (rep : List Char) (l : List Char)
    (h : noPair a b l = true) : replace2 a b rep l = l := by
  induction l with
  | nil => rfl
  | cons c rest ih =>
    cases rest with
    | nil => rfl
    | cons d rest2 =>
      simp only [noPair, Bool.and_eq_true, Bool.not_eq_true'] at h
      have hcd : ¬ (c = a ∧ d = b) := by
        intro hh
        simp [hh.1, hh.2] at h
      rw [replace2, if_neg hcd, ih h.2]

theorem unescapeFuel_id (fuel : Nat) (l : List Char) (h : hasRef l = false) :
    unescapeFuel fuel l = l := by
  induction fuel generalizing l with
  | zero => rfl
  | succ f ih =>
    cases l with
    | nil => rfl
    | cons c rest =>
      simp only [hasRef, Bool.or_eq_false_iff] at h
      by_cases hc : c = '&'
      · cases hp : parseRef rest with
        | none => simp [unescapeFuel, hc, hp, ih rest h.2]
        | some v =>
          have h1 := h.1
          rw [hc, hp] at h1
          simp at h1
      · simp [unescapeFuel, hc, ih rest h.2]

/-- C9: the text normalization step (newlines to spaces, each double space
collapsed once, then entity unescaping) is the identity on every string with
no newline, no two consecutive spaces, and no character/entity reference. -/
theorem normalizeText_idempotent_on_normalized (s : String)
    (h1 : s.data.all (fun c => !(c == '\n')) = true)
    (h2 : noPair ' ' ' ' s.data = true)
    (h3 : hasRef s.data = false) :
    normalizeText s = s := by
  unfold normalizeText unescape
  rw [replace1_id _ _ _ h1, replace2_id _ _ _ _ h2]
  show String.mk (unescapeFuel s.data.length s.data) = s
  rw [unescapeFuel_id _ _ h3]

/-- C9, witness: a concrete already-normalized string (with a literal `&` that
introduces no reference) is returned unchanged. -/
theorem normalizeText_idempotent_witness : normalizeText "A & B. " = "A & B. " :=
  normalizeText_idempotent_on_normalized "A & B. " (by decide) (by decide) (by decide)

/-! ### C1: behaviour on input that is not well-formed XML -/

/-- C1, counterexample: on an unparsable input the `ElementTree.fromstring`
call — which in both generation functions precedes the `try` block — raises,
and the exception escapes the function (modelled by `none`): neither function
returns the empty string. -/
theorem malformed_xml_cex :
    xml_caption_to_transcript ParseResult.parseError = none ∧
    xml_caption_to_srt ParseResult.parseError = none ∧
    ((none : Option String) == some "") = false :=
  ⟨rfl, rfl, rfl⟩

/-- C1, amended: a parse error on malformed XML escapes both generation
functions (the parse happens before the `try` block); on any successfully
parsed input neither function raises. -/
theorem malformed_xml_amended :
    xml_caption_to_transcript ParseResult.parseError = none ∧
    xml_caption_to_srt ParseResult.parseError = none ∧
    ∀ e : XElem, (xml_caption_to_transcript (ParseResult.root e)).isSome = true ∧
      (xml_caption_to_srt (ParseResult.root e)).isSome = true :=
  ⟨rfl, rfl, fun _ => ⟨rfl, rfl⟩⟩

/-! ### C6: well-formed XML without a `body` child of the root -/

/-- C6: when the document root has no `body` child, the deliberately raised
`AssertionError` is caught by the bare `except` of each generation function,
the `segments` list stays empty, and both functions return the empty
string. -/
theorem no_body_returns_empty (e : XElem) (h : findChild e "body" = none) :
    xml_caption_to_transcript (ParseResult.root e) = some "" ∧
    xml_caption_to_srt (ParseResult.root e) = some "" := by
  constructor
  · simp only [xml_caption_to_transcript, transcriptSegments, h]
    rfl
  · simp only [xml_caption_to_srt, srtSegments, h]
    rfl

/-- C6, witness: a concrete parsed document whose root has children but no
`body` child yields the empty string from both functions. -/
theorem no_body_returns_empty_witness :
    xml_caption_to_transcript
      (ParseResult.root ⟨"timedtext", [], none, [⟨"head", [], none, []⟩]⟩) = some "" ∧
    xml_caption_to_srt
      (ParseResult.root ⟨"timedtext", [], none, [⟨"head", [], none, []⟩]⟩) = some "" :=
  no_body_returns_empty _ rfl

/-! ### C4: the transcript as a filter-and-join of normalized paragraph texts -/

theorem foldl_append_filter (ps : List XElem) (acc : List String) :
    ps.foldl (fun acc p =>
      let caption := normalizeText (pText p)
      if caption != "" then acc ++ [caption] else acc) acc
    = acc ++ (ps.map (fun p => normalizeText (pText p))).filter (fun c => c != "") := by
  induction ps generalizing acc with
  | nil => simp
  | cons p rest ih =>
    simp only [List.foldl_cons, List.map_cons, List.filter_cons]
    by_cases hc : (normalizeText (pText p) != "") = true
    · rw [ih]
      simp [hc]
    · rw [ih]
      simp only [Bool.not_eq_true] at hc
      simp [hc]

/-- C4: for well-formed input with a `body`, the transcript is the normalized
texts of the paragraphs in document order, the empty ones skipped, joined
with single spaces and trimmed; when every paragraph's normalized text is
empty (in particular with no paragraphs at all) the result is the empty
string. -/
theorem transcript_filters_and_joins (root body : XElem)
    (hb : findChild root "body" = some body) :
    xml_caption_to_transcript (ParseResult.root root) =
      some (pyStrip (String.intercalate " "
        (((findAll body "p").map (fun p => normalizeText (pText p))).filter
          (fun c => c != "")))) ∧
    (((findAll body "p").map (fun p => normalizeText (pText p))).all
        (fun c => c == "") = true →
      xml_caption_to_transcript (ParseResult.root root) = some "") := by
  have hseg : transcriptSegments root =
      ((findAll body "p").map (fun p => normalizeText (pText p))).filter
        (fun c => c != "") := by
    unfold transcriptSegments
    rw [hb]
    simpa using foldl_append_filter (findAll body "p") []
  refine ⟨by simp [xml_caption_to_transcript, hseg], fun hall => ?_⟩
  have hnil : ((findAll body "p").map (fun p => normalizeText (pText p))).filter
      (fun c => c != "") = [] := by
    rw [List.filter_eq_nil_iff]
    intro a ha
    have := List.all_eq_true.mp hall a ha
    simp only [beq_iff_eq] at this
    simp [this]
  rw [show xml_caption_to_transcript (ParseResult.root root) =
    some (pyStrip (String.intercalate " " (transcriptSegments root))) from rfl, hseg, hnil]
  rfl

/-- The concrete `body` element of the C4 witness document: paragraphs with
normalized texts `"A"`, `""` and `"B"`. -/
def transcriptWitnessBody : XElem :=
  ⟨"body", [], none,
    [⟨"p", [("t", "0"), ("d", "10")], none, [⟨"s", [], some "A", []⟩]⟩,
     ⟨"p", [("t", "10"), ("d", "10")], none, []⟩,
     ⟨"p", [("t", "20"), ("d", "10")], none, [⟨"s", [], some "B", []⟩]⟩]⟩

/-- The concrete root of the C4 witness document. -/
def transcriptWitnessRoot : XElem :=
  ⟨"timedtext", [("format", "3")], none, [transcriptWitnessBody]⟩

/-- C4, witness: on the concrete three-paragraph document the empty-text
paragraph is dropped and the transcript is `"A B"`. -/
theorem transcript_filters_and_joins_witness :
    xml_caption_to_transcript (ParseResult.root transcriptWitnessRoot) = some "A B" := by
  have h := (transcript_filters_and_joins transcriptWitnessRoot transcriptWitnessBody rfl).1
  rw [h]
  decide

/-! ### The SRT loop on paragraphs whose attributes all parse -/

theorem srtGoL_cons_some (i : Nat) (p : XElem) (rest : List XElem) (a b : ℚ)
    (ht : tOf p = some a)
    (he : (match rest with | next :: _ => tOf next | [] => dOf p) = some b) :
    srtGoL i (p :: rest) =
      srtLine (i + 1) a b (normalizeText (pText p)) :: srtGoL (i + 1) rest := by
  simp only [srtGoL, ht, he]

theorem srtGoL_cons_tnone (i : Nat) (p : XElem) (rest : List XElem)
    (ht : tOf p = none) : srtGoL i (p :: rest) = [] := by
  simp only [srtGoL, ht]

theorem srtGoL_cons_enone (i : Nat) (p : XElem) (rest : List XElem) (a : ℚ)
    (ht : tOf p = some a)
    (he : (match rest with | next :: _ => tOf next | [] => dOf p) = none) :
    srtGoL i (p :: rest) = [] := by
  simp only [srtGoL, ht, he]

theorem srtGoL_ok (ps : List XElem) : ∀ (k : Nat) (τ : Nat → ℚ) (δ : ℚ),
    (∀ i, i < ps.length → tOf (elemAt ps i) = some (τ (k + i))) →
    (ps ≠ [] → dOf (ps.getLastD dummyElem) = some δ) →
    srtGoL k ps = (List.range ps.length).map (fun j =>
      srtLine (k + j + 1) (τ (k + j))
        (if j + 1 < ps.length then τ (k + j + 1) else δ)
        (normalizeText (pText (elemAt ps j)))) := by
  induction ps with
  | nil => intro k τ δ ht hd; rfl
  | cons p rest ih =>
    intro k τ δ ht hd
    have ht0 : tOf p = some (τ k) := by
      have h := ht 0 (by simp)
      simpa [elemAt] using h
    cases rest with
    | nil =>
      have hd0 : dOf p = some δ := by
        have h := hd (by simp)
        simpa [List.getLastD] using h
      simp [srtGoL, ht0, hd0, elemAt, List.range_succ]
    | cons q rest2 =>
      have ht1 : tOf q = some (τ (k + 1)) := by
        have h := ht 1 (by simp)
        simpa [elemAt] using h
      have htail : ∀ i, i < (q :: rest2).length →
          tOf (elemAt (q :: rest2) i) = some (τ (k + 1 + i)) := by
        intro i hi
        have h := ht (i + 1) (by simpa using Nat.succ_lt_succ hi)
        have e : k + (i + 1) = k + 1 + i := by omega
        rw [e] at h
        simpa [elemAt, List.getD_cons_succ] using h
      have hdtail : (q :: rest2) ≠ [] → dOf ((q :: rest2).getLastD dummyElem) = some δ := by
        intro _
        have h := hd (by simp)
        rw [List.getLastD_cons dummyElem p (q :: rest2), List.getLastD_cons p q rest2] at h
        rw [List.getLastD_cons dummyElem q rest2]
        exact h
      have hrec := ih (k + 1) τ δ htail hdtail
      rw [srtGoL_cons_some k p (q :: rest2) (τ k) (τ (k + 1)) ht0 ht1, hrec]
      conv_rhs => rw [List.length_cons, List.range_succ_eq_map, List.map_cons, List.map_map]
      congr 1
      · simp [elemAt]
      · apply List.map_congr_left
        intro j hj
        have hj2 : j < (q :: rest2).length := List.mem_range.mp hj
        simp only [Function.comp, Nat.succ_eq_add_one, elemAt, List.getD_cons_succ,
          List.length_cons, Nat.add_lt_add_iff_right]
        rw [show k + (j + 1) + 1 = k + 1 + j + 1 from by omega,
          show k + (j + 1) = k + 1 + j from by omega]

/-- C2: for a well-formed document whose `body` holds paragraphs `ps` with all
`t` attributes parsing to `τ` and the last paragraph's `d` parsing to `δ`, the
SRT segments list has exactly one cue block per paragraph, in document order,
with sequence numbers 1..N; cue `j` ends at paragraph `j+1`'s start time
`τ (j+1)` when `j+1 < N`, and the last cue ends at the last paragraph's own
`d` value `δ`, used directly as a timestamp; the function's output is these
blocks joined by newlines and trimmed. -/
theorem srt_blocks_per_paragraph (root body : XElem) (ps : List XElem)
    (τ : Nat → ℚ) (δ : ℚ)
    (hb : findChild root "body" = some body)
    (hp : findAll body "p" = ps)
    (ht : ∀ i, i < ps.length → tOf (elemAt ps i) = some (τ i))
    (hd : ps ≠ [] → dOf (ps.getLastD dummyElem) = some δ) :
    srtSegments root = (List.range ps.length).map (fun j =>
      srtLine (j + 1) (τ j)
        (if j + 1 < ps.length then τ (j + 1) else δ)
        (normalizeText (pText (elemAt ps j)))) ∧
    (srtSegments root).length = ps.length ∧
    xml_caption_to_srt (ParseResult.root root) =
      some (pyStrip (String.intercalate "\n" (srtSegments root))) := by
  have hseg : srtSegments root = srtGoL 0 ps := by
    simp only [srtSegments, hb, hp]
  have h0 := srtGoL_ok ps 0 τ δ
    (fun i hi => by rw [Nat.zero_add]; exact ht i hi) hd
  have hmap : srtGoL 0 ps = (List.range ps.length).map (fun j =>
      srtLine (j + 1) (τ j) (if j + 1 < ps.length then τ (j + 1) else δ)
        (normalizeText (pText (elemAt ps j)))) := by
    rw [h0]
    apply List.map_congr_left
    intro j hj
    simp
  refine ⟨hseg.trans hmap, ?_, rfl⟩
  rw [hseg, hmap]
  simp

/-- The `body` element of the C2 witness document: two paragraphs with start
times 320 and 1750 and final duration 2410. -/
def srtWitnessBody : XElem :=
  ⟨"body", [], none,
    [⟨"p", [("t", "320"), ("d", "1.7")], none, [⟨"s", [], some "A", []⟩]⟩,
     ⟨"p", [("t", "1750"), ("d", "2410")], none, [⟨"s", [], some "B", []⟩]⟩]⟩

/-- The root of the C2 witness document. -/
def srtWitnessRoot : XElem :=
  ⟨"timedtext", [("format", "3")], none, [srtWitnessBody]⟩

/-- C2, witness: the concrete two-paragraph document yields exactly two cue
blocks; the first ends at the second's start time and the second ends at its
own `d` value 2410 read as a timestamp. -/
theorem srt_blocks_per_paragraph_witness :
    (srtSegments srtWitnessRoot).length = 2 ∧
    xml_caption_to_srt (ParseResult.root srtWitnessRoot) =
      some ("1\n00:00:00,320 --> 00:00:01,750\nA\n\n2\n00:00:01,750 --> 00:00:02,410\nB") := by
  have h := srt_blocks_per_paragraph srtWitnessRoot srtWitnessBody
    (findAll srtWitnessBody "p")
    (fun i => if i = 0 then Rat.divInt 320 1 else Rat.divInt 1750 1) (Rat.divInt 2410 1)
    rfl rfl (by decide) (fun _ => by decide)
  refine ⟨?_, ?_⟩
  · rw [h.2.1]
    decide
  · rw [h.2.2, h.1]
    decide

/-! ### The SRT loop when a `t` or `d` attribute fails to parse -/

theorem srtGoL_tfail (ps : List XElem) : ∀ (k : Nat) (τ : Nat → ℚ) (j : Nat),
    j < ps.length →
    (∀ i, i < j → tOf (elemAt ps i) = some (τ (k + i))) →
    tOf (elemAt ps j) = none →
    srtGoL k ps = (List.range (j - 1)).map (fun i =>
      srtLine (k + i + 1) (τ (k + i)) (τ (k + i + 1))
        (normalizeText (pText (elemAt ps i)))) := by
  induction ps with
  | nil =>
    intro k τ j hj
    exact absurd hj (by simp)
  | cons p rest ih =>
    intro k τ j hj ht hf
    cases j with
    | zero =>
      have hp0 : tOf p = none := by simpa [elemAt] using hf
      rw [srtGoL_cons_tnone k p rest hp0]
      rfl
    | succ j2 =>
      have ht0 : tOf p = some (τ k) := by
        have h := ht 0 (Nat.succ_pos j2)
        simpa [elemAt] using h
      cases rest with
      | nil => exact absurd hj (by simp)
      | cons q rest2 =>
        cases j2 with
        | zero =>
          have hq : tOf q = none := by simpa [elemAt] using hf
          rw [srtGoL_cons_enone k p (q :: rest2) (τ k) ht0 hq]
          rfl
        | succ j3 =>
          have ht1 : tOf q = some (τ (k + 1)) := by
            have h := ht 1 (by omega)
            simpa [elemAt] using h
          have htail : ∀ i, i < j3 + 1 →
              tOf (elemAt (q :: rest2) i) = some (τ (k + 1 + i)) := by
            intro i hi
            have h := ht (i + 1) (by omega)
            have e : k + (i + 1) = k + 1 + i := by omega
            rw [e] at h
            simpa [elemAt, List.getD_cons_succ] using h
          have hftail : tOf (elemAt (q :: rest2) (j3 + 1)) = none := by
            simpa [elemAt, List.getD_cons_succ] using hf
          have hrec := ih (k + 1) τ (j3 + 1) (by simpa using Nat.lt_of_succ_lt_succ hj)
            htail hftail
          rw [srtGoL_cons_some k p (q :: rest2) (τ k) (τ (k + 1)) ht0 ht1, hrec]
          conv_rhs => rw [show (j3 + 1 + 1 : Nat) - 1 = j3 + 1 from rfl,
            List.range_succ_eq_map, List.map_cons, List.map_map]
          congr 1
          apply List.map_congr_left
          intro i hi2
          have e1 : k + (i + 1) + 1 = k + 1 + i + 1 := by omega
          have e2 : k + (i + 1) = k + 1 + i := by omega
          simp only [Function.comp, Nat.succ_eq_add_one, elemAt, List.getD_cons_succ, e1, e2]

theorem srtGoL_dfail (ps : List XElem) : ∀ (k : Nat) (τ : Nat → ℚ),
    ps ≠ [] →
    (∀ i, i < ps.length → tOf (elemAt ps i) = some (τ (k + i))) →
    dOf (ps.getLastD dummyElem) = none →
    srtGoL k ps = (List.range (ps.length - 1)).map (fun i =>
      srtLine (k + i + 1) (τ (k + i)) (τ (k + i + 1))
        (normalizeText (pText (elemAt ps i)))) := by
  induction ps with
  | nil =>
    intro k τ h
    exact absurd rfl h
  | cons p rest ih =>
    intro k τ _ ht hdn
    have ht0 : tOf p = some (τ k) := by
      have h := ht 0 (by simp)
      simpa [elemAt] using h
    cases rest with
    | nil =>
      have hd0 : dOf p = none := by simpa [List.getLastD] using hdn
      rw [srtGoL_cons_enone k p [] (τ k) ht0 hd0]
      rfl
    | cons q rest2 =>
      have ht1 : tOf q = some (τ (k + 1)) := by
        have h := ht 1 (by simp)
        simpa [elemAt] using h
      have htail : ∀ i, i < (q :: rest2).length →
          tOf (elemAt (q :: rest2) i) = some (τ (k + 1 + i)) := by
        intro i hi
        have h := ht (i + 1) (by simpa using Nat.succ_lt_succ hi)
        have e : k + (i + 1) = k + 1 + i := by omega
        rw [e] at h
        simpa [elemAt, List.getD_cons_succ] using h
      have hdtail : dOf ((q :: rest2).getLastD dummyElem) = none := by
        rw [List.getLastD_cons dummyElem p (q :: rest2), List.getLastD_cons p q rest2] at hdn
        rw [List.getLastD_cons dummyElem q rest2]
        exact hdn
      have hrec := ih (k + 1) τ (by simp) htail hdtail
      rw [srtGoL_cons_some k p (q :: rest2) (τ k) (τ (k + 1)) ht0 ht1, hrec]
      conv_rhs => rw [List.length_cons, List.length_cons,
        show (rest2.length + 1 + 1 : Nat) - 1 = rest2.length + 1 from rfl,
        List.range_succ_eq_map, List.map_cons, List.map_map]
      congr 1
      apply List.map_congr_left
      intro i hi2
      have e1 : k + (i + 1) + 1 = k + 1 + i + 1 := by omega
      have e2 : k + (i + 1) = k + 1 + i := by omega
      simp only [Function.comp, Nat.succ_eq_add_one, elemAt, List.getD_cons_succ, e1, e2]

/-- C3, amended: when a paragraph's `t` attribute (or the last paragraph's
`d`) is absent or non-numeric, `xml_caption_to_srt` raises no exception — the
error is caught by the bare `except` — but the output is not in general the
empty string: it is the trimmed newline-join of the cue blocks completed
before the error. A failing `t` on paragraph `j` (0-based) leaves the first
`j - 1` blocks (so the output is empty exactly when `j ≤ 1`); a failing `d`
on the last of `N` paragraphs leaves the first `N - 1` blocks. -/
theorem srt_attribute_error_truncates (root body : XElem) (ps : List XElem)
    (τ : Nat → ℚ)
    (hb : findChild root "body" = some body)
    (hp : findAll body "p" = ps) :
    (∀ j, j < ps.length →
      (∀ i, i < j → tOf (elemAt ps i) = some (τ i)) →
      tOf (elemAt ps j) = none →
      xml_caption_to_srt (ParseResult.root root) =
        some (pyStrip (String.intercalate "\n" ((List.range (j - 1)).map (fun i =>
          srtLine (i + 1) (τ i) (τ (i + 1)) (normalizeText (pText (elemAt ps i)))))))) ∧
    (ps ≠ [] →
      (∀ i, i < ps.length → tOf (elemAt ps i) = some (τ i)) →
      dOf (ps.getLastD dummyElem) = none →
      xml_caption_to_srt (ParseResult.root root) =
        some (pyStrip (String.intercalate "\n" ((List.range (ps.length - 1)).map (fun i =>
          srtLine (i + 1) (τ i) (τ (i + 1)) (normalizeText (pText (elemAt ps i)))))))) := by
  have hseg : srtSegments root = srtGoL 0 ps := by
    simp only [srtSegments, hb, hp]
  constructor
  · intro j hj ht hf
    have h0 := srtGoL_tfail ps 0 τ j hj
      (fun i hi => by rw [Nat.zero_add]; exact ht i hi) hf
    show some (pyStrip (String.intercalate "\n" (srtSegments root))) = _
    rw [hseg, h0]
    congr 2
    refine congrArg _ ?_
    apply List.map_congr_left
    intro i hi
    simp
  · intro hne ht hdn
    have h0 := srtGoL_dfail ps 0 τ hne
      (fun i hi => by rw [Nat.zero_add]; exact ht i hi) hdn
    show some (pyStrip (String.intercalate "\n" (srtSegments root))) = _
    rw [hseg, h0]
    congr 2
    refine congrArg _ ?_
    apply List.map_congr_left
    intro i hi
    simp

/-- The `body` of the C3 counterexample document: three paragraphs, the third
with no `t` attribute. -/
def srtFailBody : XElem :=
  ⟨"body", [], none,
    [⟨"p", [("t", "0"), ("d", "800")], none, [⟨"s", [], some "A", []⟩]⟩,
     ⟨"p", [("t", "1000"), ("d", "700")], none, [⟨"s", [], some "B", []⟩]⟩,
     ⟨"p", [("d", "5000")], none, [⟨"s", [], some "C", []⟩]⟩]⟩

/-- The root of the C3 counterexample document. -/
def srtFailRoot : XElem :=
  ⟨"timedtext", [("format", "3")], none, [srtFailBody]⟩

/-- C3, counterexample: on a well-formed document whose third paragraph lacks
`t`, `xml_caption_to_srt` returns the one cue block completed before the
error — partial output, not the empty string. -/
theorem srt_attribute_error_cex :
    xml_caption_to_srt (ParseResult.root srtFailRoot) =
      some "1\n00:00:00,000 --> 00:00:01,000\nA" ∧
    ("1\n00:00:00,000 --> 00:00:01,000\nA" == "") = false :=
  ⟨by decide, rfl⟩

/-- C3, witness for the amended claim: applying it to the counterexample
document (failure at paragraph `j = 2`) yields the partial one-block
output. -/
theorem srt_attribute_error_witness :
    xml_caption_to_srt (ParseResult.root srtFailRoot) =
      some (pyStrip (String.intercalate "\n" ((List.range 1).map (fun i =>
        srtLine (i + 1) ((fun n => if n = 0 then (0 : ℚ) else Rat.divInt 1000 1) i)
          ((fun n => if n = 0 then (0 : ℚ) else Rat.divInt 1000 1) (i + 1))
          (normalizeText (pText (elemAt (findAll srtFailBody "p") i))))))) := by
  have h := (srt_attribute_error_truncates srtFailRoot srtFailBody (findAll srtFailBody "p")
    (fun n => if n = 0 then (0 : ℚ) else Rat.divInt 1000 1) rfl rfl).1 2
    (by decide) (by decide) (by decide)
  exact h

/-! ### Caption construction: language code and display name -/

/-- C7, counterexample: a descriptor whose `vssId` is `"."` constructs
successfully, and the stored language code is the empty string — the code
never checks non-emptiness after stripping. -/
theorem code_nonempty_cex :
    mkCaption ⟨some "url1", some ⟨some "name1", none⟩, some "."⟩ =
      some ⟨some "url1", some "name1", ""⟩ := by
  decide

/-- C7, amended: for every successfully constructed Caption the stored
language code equals the descriptor's `vssId` with all leading and trailing
`'.'` characters stripped; it may be empty (when `vssId` consists solely of
dots), since the constructor enforces no non-emptiness. -/
theorem code_eq_stripDots (d : CaptionTrackDict) (c : Caption) (v : String)
    (hv : d.vssId = some v) (hc : mkCaption d = some c) :
    c.code = stripDots v := by
  cases hn : d.name with
  | none => simp [mkCaption, hn] at hc
  | some nd =>
    cases hs : nd.simpleText with
    | some s =>
      simp only [mkCaption, hn, hs, hv, Option.some.injEq] at hc
      subst hc
      rfl
    | none =>
      cases hr : nd.runs with
      | none => simp [mkCaption, hn, hs, hr] at hc
      | some rs =>
        simp only [mkCaption, hn, hs, hr, hv, Option.some.injEq] at hc
        subst hc
        rfl

/-- C7, witness for the amended claim: vssId `".en"` yields stored code
`"en"`, the stripped form. -/
theorem code_eq_stripDots_witness :
    (⟨some "url1", some "name1", "en"⟩ : Caption).code = stripDots ".en" :=
  code_eq_stripDots ⟨some "url1", some ⟨some "name1", none⟩, some ".en"⟩
    ⟨some "url1", some "name1", "en"⟩ ".en" rfl (by decide)

theorem getLast?_cons_elim (u : α) (l : List α) :
    (u :: l).getLast? = match l.getLast? with | some t => some t | none => some u := by
  cases hl : l.getLast? with
  | none =>
    have he : l = [] := List.getLast?_eq_none_iff.mp hl
    subst he
    rfl
  | some t =>
    cases l with
    | nil => simp at hl
    | cons v l2 =>
      rw [List.getLast?_cons_cons, hl]

theorem foldl_runs_last (rs : List RunDict) : ∀ (init : Option String),
    rs.foldl (fun acc r => match r.text with | some t => some t | none => acc) init
      = match (rs.filterMap RunDict.text).getLast? with
        | some t => some t
        | none => init := by
  induction rs with
  | nil => intro init; rfl
  | cons r rest ih =>
    intro init
    rw [List.foldl_cons]
    cases hr : r.text with
    | none =>
      simp only [List.filterMap_cons, hr]
      exact ih init
    | some u =>
      simp only [List.filterMap_cons, hr]
      rw [ih (some u), getLast?_cons_elim u (rest.filterMap RunDict.text)]
      cases hl : (rest.filterMap RunDict.text).getLast? with
      | none => rfl
      | some t => rfl

/-- C8: when the descriptor's name has no `simpleText` and its `runs` list
has at least one element with a `text` field, the constructed display name is
the text of the LAST run carrying a `text` field — the loop overwrites the
attribute instead of concatenating. -/
theorem name_last_run (d : CaptionTrackDict) (nd : NameDict) (rs : List RunDict)
    (v t : String)
    (hn : d.name = some nd) (hs : nd.simpleText = none) (hr : nd.runs = some rs)
    (hv : d.vssId = some v)
    (hl : (rs.filterMap RunDict.text).getLast? = some t) :
    (mkCaption d).map Caption.name = some (some t) := by
  simp [mkCaption, hn, hs, hr, hv, foldl_runs_last, hl]

/-- C8, witness: runs `[{text: "First"}, {}, {text: "Last"}]` yield display
name `"Last"` — earlier run texts are dropped, not concatenated. -/
theorem name_last_run_witness :
    (mkCaption ⟨some "url1",
      some ⟨none, some [⟨some "First"⟩, ⟨none⟩, ⟨some "Last"⟩]⟩,
      some ".en"⟩).map Caption.name = some (some "Last") :=
  name_last_run _ _ _ ".en" "Last" rfl rfl rfl rfl (by decide)

/-- C10: when the descriptor's name has no `simpleText` and no run carries a
`text` field (including an empty `runs` list), construction completes without
raising — for a descriptor carrying `vssId`, as §4.1 requires of descriptors —
but the display-name attribute is never assigned, so reading it in the
printable representation fails (`AttributeError`, modelled by `none`). -/
theorem name_unassigned_repr_fails (d : CaptionTrackDict) (nd : NameDict)
    (rs : List RunDict) (v : String)
    (hn : d.name = some nd) (hs : nd.simpleText = none) (hr : nd.runs = some rs)
    (hv : d.vssId = some v)
    (hempty : rs.filterMap RunDict.text = []) :
    (mkCaption d).map (fun c => (c.name, reprCaption c)) =
      some ((none : Option String), (none : Option String)) := by
  simp [mkCaption, hn, hs, hr, hv, foldl_runs_last, hempty, reprCaption]

/-- C10, witness: a run list whose single element lacks `text` gives a
Caption whose name was never assigned and whose repr access fails. -/
theorem name_unassigned_repr_fails_witness :
    (mkCaption ⟨some "url1", some ⟨none, some [⟨none⟩]⟩, some ".en"⟩).map
      (fun c => (c.name, reprCaption c)) =
      some ((none : Option String), (none : Option String)) :=
  name_unassigned_repr_fails _ _ _ ".en" rfl rfl rfl rfl rfl
